import Mathlib

/-!
Shallow embedding of the Meower-Uploads file ingestion and lifecycle engine
(`src/file.go`, `src/utils.go`).  The metadata store (MongoDB collection
`files`) is modelled as a list of records, the block list as a list of
hashes, and the object store as a trace of attempted PUT/REMOVE operations
(all writes target the primary region, so PUT events carry no region).
External codec invocations (`file`, `magick`, `ffmpeg`, `sha256sum`) and the
object-store client are oracles: their outcomes are fields of an environment
structure supplied to each operation.  Machine integers are modelled as
`Nat`/`Int` (sizes and pixel dimensions are parsed from tool output and are
never negative; unix timestamps are `Int`).
-/

/-- A record of the `files` collection (struct `File` in `src/file.go`). -/
structure File where
  id : String
  hash : String
  bucket : String
  mime : String
  thumbnailMime : String
  size : Nat
  filename : String
  width : Nat
  height : Nat
  uploadRegion : String
  uploadedBy : String
  uploadedAt : Int
  claimed : Bool
deriving Repr, DecidableEq

/-- The zero value of the Go `File` struct (what `Decode` leaves behind when
`FindOne` matches no document). -/
def File.empty : File :=
  { id := "", hash := "", bucket := "", mime := "", thumbnailMime := "",
    size := 0, filename := "", width := 0, height := 0, uploadRegion := "",
    uploadedBy := "", uploadedAt := 0, claimed := false }

/-- The authenticated uploader (struct `User`). -/
structure User where
  username : String
  flags : Int
deriving Repr, DecidableEq

/-- An attempted `FPutObject` call: bucket, object key, content type.
All uploads target the primary region `s3RegionOrder[0]`. -/
structure PutEvent where
  bucket : String
  key : String
  contentType : String
deriving Repr, DecidableEq

/-- An attempted `RemoveObject` call (issued against a specific region). -/
structure RemoveEvent where
  region : String
  bucket : String
  key : String
deriving Repr, DecidableEq

/-- Observable object-store / codec side effects of one operation:
attempted uploads, the geometries `n` of `magick -resize nxn` invocations,
and attempted removals. -/
structure Trace where
  puts : List PutEvent
  resizes : List Nat
  removes : List RemoveEvent
deriving Repr, DecidableEq

/-- The empty trace. -/
def Trace.empty : Trace := ⟨[], [], []⟩

/-- The persistent state: the `files` collection and the `blocked_files`
collection (a list of blocked hashes). -/
structure Store where
  files : List File
  blockedFiles : List String
deriving Repr, DecidableEq

/-- Embeds Go `strings.HasPrefix s p`. -/
def goHasPfx (s p : String) : Bool :=
  p.data.isPrefixOf s.data

/-- Embeds `cleanFilename` (`src/utils.go`): every character outside
`[A-Za-z0-9.\-_+!()$]` is replaced by an underscore. -/
def cleanFilenameChar (c : Char) : Bool :=
  (c ≥ 'A' && c ≤ 'Z') || (c ≥ 'a' && c ≤ 'z') || (c ≥ '0' && c ≤ '9') ||
    c = '.' || c = '-' || c = '_' || c = '+' || c = '!' || c = '(' || c = ')' || c = '$'

/-- Embeds `cleanFilename` (`src/utils.go`): the per-character replacement of
the regex `ReplaceAllString`, applied over the string's character list. -/
def cleanFilename (s : String) : String :=
  ⟨s.data.map (fun c => if cleanFilenameChar c then c else '_')⟩

/-- Embeds the `FindOne` query on `bson.M (hash, bucket)` used by the dedup
resolver: the first record with the given hash and bucket. -/
def findFileByHashBucket (files : List File) (hashHex bucket : String) : Option File :=
  files.find? (fun f => f.hash == hashHex && f.bucket == bucket)

/-- Embeds `getBlockStatus` (`src/utils.go`): `CountDocuments` on
`blocked_files` with limit 1 is positive iff the hash is listed. -/
def getBlockStatus (blockedFiles : List String) (hashHex : String) : Bool :=
  blockedFiles.contains hashHex

/-- Embeds `isFileReferenced` (`src/utils.go`): `CountDocuments` on
`files` with a `(hash, bucket)` filter and limit 1 is positive iff some
record references that pair. -/
def isFileReferenced (files : List File) (bucket hashHex : String) : Bool :=
  files.any (fun g => g.hash == hashHex && g.bucket == bucket)

/-- Embeds `GetFile` (`src/file.go`): `FindOne` by `_id` restricted to
records with a nonzero `uploaded_at`. -/
def getFile (files : List File) (id : String) : Option File :=
  files.find? (fun f => f.id == id && !(f.uploadedAt == 0))

/-- Embeds the `UpdateMany` issued by `GenerateThumbnail`: set
`thumbnail_mime` on every record matching `(hash, bucket)`. -/
def updateThumbnailMimeMany (files : List File) (hashHex bucket tm : String) : List File :=
  files.map (fun g => if g.hash = hashHex ∧ g.bucket = bucket then { g with thumbnailMime := tm } else g)

/-- Embeds `DeleteOne` by `_id`: removes the first record with the given id. -/
def deleteOneById : List File → String → List File
  | [], _ => []
  | f :: rest, id => if f.id = id then rest else f :: deleteOneById rest id

/-- Oracle for one `GenerateThumbnail` invocation: the raw output of
`magick identify -format %n` on the source, whether the `magick -resize`
succeeds, and the outcome of the thumbnail `FPutObject` (`none` = success).
The scratch download, `mkdir` and (for videos) the first-frame extraction
are modelled as succeeding: no claim turns on their failure. -/
structure ThumbnailEnv where
  framesOut : String
  resizeOk : Bool
  putErr : Option String
deriving Repr, DecidableEq

/-- Embeds the thumbnail geometry choice in `GenerateThumbnail`
(`src/file.go` lines 469-477): the larger axis, capped at 480. -/
def thumbDesiredSize (width height : Nat) : Nat :=
  let d := if width > height then width else height
  if d > 480 then 480 else d

/-- Embeds `File.GenerateThumbnail` (`src/file.go` lines 419-542): choose
webp for single-frame images (gif otherwise, webp for videos), resize the
source to `thumbDesiredSize`, upload the result at key `hash ++ "_thumbnail"`,
and propagate the thumbnail MIME to every record sharing `(hash, bucket)`.
Returns the possibly-updated receiver, the updated collection, and the trace
of attempted operations. -/
def generateThumbnail (f : File) (files : List File) (env : ThumbnailEnv) :
    Except String File × List File × Trace :=
  let format := if goHasPfx f.mime "image/" && env.framesOut != "1" then "gif" else "webp"
  let d := thumbDesiredSize f.width f.height
  if ¬ env.resizeOk then
    (.error "magick resize failed", files, ⟨[], [d], []⟩)
  else
    let tr : Trace := ⟨[⟨f.bucket, f.hash ++ "_thumbnail", "image/" ++ format⟩], [d], []⟩
    match env.putErr with
    | some e => (.error e, files, tr)
    | none =>
      let tm := "image/" ++ format
      (.ok { f with thumbnailMime := tm }, updateThumbnailMimeMany files f.hash f.bucket tm, tr)

/-- Embeds `File.GetObject` (`src/file.go` lines 544-563): the thumbnail
variant (key suffix `_thumbnail`, lazily generated when no thumbnail MIME is
recorded) applies only when `thumbnail` is requested, the bucket is
`attachments`, and the MIME is `image/*` or `video/*`; otherwise the
canonical key is served.  Returns the requested `(key, receiver)`. -/
def getObject (f : File) (thumbnail : Bool) (files : List File) (env : ThumbnailEnv) :
    Except String (String × File) × List File × Trace :=
  if thumbnail && f.bucket == "attachments" && (goHasPfx f.mime "image/" || goHasPfx f.mime "video/") then
    if f.thumbnailMime = "" then
      match generateThumbnail f files env with
      | (.error e, files1, tr) => (.error e, files1, tr)
      | (.ok f1, files1, tr) => (.ok (f1.hash ++ "_thumbnail", f1), files1, tr)
    else
      (.ok (f.hash ++ "_thumbnail", f), files, Trace.empty)
  else
    (.ok (f.hash, f), files, Trace.empty)

/-- Embeds `File.Delete` (`src/file.go` lines 565-587): delete the metadata
row by id, then, if no record still references `(hash, bucket)`, issue
best-effort removals of the canonical and thumbnail objects against every
configured region. -/
def fileDelete (f : File) (regions : List String) (st : Store) : Store × Trace :=
  let files1 := deleteOneById st.files f.id
  let removes :=
    if isFileReferenced files1 f.bucket f.hash then []
    else regions.flatMap (fun r => [⟨r, f.bucket, f.hash⟩, ⟨r, f.bucket, f.hash ++ "_thumbnail"⟩])
  (⟨files1, st.blockedFiles⟩, ⟨[], [], removes⟩)

/-- Embeds `cleanupFiles` (`src/utils.go` lines 42-64): fetch every record
with `claimed == false` and `uploaded_at < now - 1800`, then run each through
`File.Delete`. -/
def cleanupFiles (st : Store) (now : Int) (regions : List String) : Store × Trace :=
  let expired := st.files.filter (fun f => !f.claimed && decide (f.uploadedAt < now - 1800))
  expired.foldl
    (fun acc f =>
      let r := fileDelete f regions acc.1
      (r.1, ⟨[], [], acc.2.removes ++ r.2.removes⟩))
    (st, Trace.empty)

/-- Oracle for one `IngestMultipartFile` invocation.  `newId` is the
generated id, `now` the upload timestamp, `hashHex` the `sha256sum` digest of
the saved bytes, `detectedMime` the `file --mime-type` answer, `width`,
`height` and `framesOut` the `magick identify` answers on the original,
`convertOk` whether the canonical `magick` re-encode succeeds, `uploadErr`
the outcome of the canonical `FPutObject` (`none` = success, with `uploadSize`
the reported size), `newWidth`/`newHeight` the re-probe of the re-encoded
icon/emoji/sticker asset, `ffmpegOk`/`frameProbeOk`/`frameWidth`/`frameHeight`
the video first-frame extraction and probe, `uploadErrWinsRace` whether the
canonical-upload goroutine's write to the shared `err` variable is the one
observed after `wg.Wait()`, and `thumb` the oracle of the nested
`GenerateThumbnail` call. -/
structure IngestEnv where
  newId : String
  now : Int
  hashHex : String
  detectedMime : String
  width : Nat
  height : Nat
  framesOut : String
  convertOk : Bool
  uploadErr : Option String
  uploadSize : Nat
  newWidth : Nat
  newHeight : Nat
  ffmpegOk : Bool
  frameProbeOk : Bool
  frameWidth : Nat
  frameHeight : Nat
  uploadErrWinsRace : Bool
  thumb : ThumbnailEnv
deriving Repr, DecidableEq

/-- The error taxonomy of ingestion (`ErrFileBlocked`, `ErrUnsupportedFile`,
and every other error surfaced as a plain message). -/
inductive IngestError
  | fileBlocked
  | unsupportedFile
  | ioError (msg : String)
deriving Repr, DecidableEq

deriving instance DecidableEq for Except

/-- Result of one ingestion: the returned value, the `files` collection
afterwards, and the trace of attempted object-store operations. -/
structure IngestOut where
  result : Except IngestError File
  files : List File
  trace : Trace
deriving Repr, DecidableEq

/-- Embeds the bucket size-cap switch (`src/file.go` lines 205-213). -/
def iconCap (bucket : String) : Nat :=
  if bucket = "icons" then 256
  else if bucket = "emojis" then 128
  else if bucket = "stickers" then 384
  else 0

/-- Embeds the square resize bound of the icon/emoji/sticker branch
(`src/file.go` lines 204-218): the width is checked against the cap first,
and the height is only consulted when the width is not below the cap. -/
def iconDesiredSize (bucket : String) (width height : Nat) : Nat :=
  let n := iconCap bucket
  if width < n then width
  else if height < n then height
  else n

/-- The spec's words for the square resize bound: `min(bucket cap,
min(width, height))`.  Declared for comparison with `iconDesiredSize`,
which is translated from the source. -/
def specSquareBound (bucket : String) (width height : Nat) : Nat :=
  min (iconCap bucket) (min width height)

/-- Embeds the icon/emoji/sticker branch (`src/file.go` lines 176-269):
reject non-images, pick webp/gif by the frames probe, re-encode with a
square bound, then join two concurrent subtasks (canonical upload and a
dimension re-probe of the encoded asset).  Neither subtask's outcome is
examined after the join: the re-probe discards its error (`out, _ =`), the
upload's error is written to the shared `err` but never read again before
`InsertOne` shadows it, so the record is inserted and returned regardless. -/
def ingestIconsEmojisStickers (hashHex : String) (f : File) (files : List File)
    (env : IngestEnv) : IngestOut :=
  if ¬ goHasPfx f.mime "image/" then
    ⟨.error .unsupportedFile, files, Trace.empty⟩
  else
    let format := if env.framesOut = "1" then "webp" else "gif"
    let newMime := if env.framesOut = "1" then "image/webp" else "image/gif"
    let d := iconDesiredSize f.bucket f.width f.height
    if ¬ env.convertOk then
      ⟨.error (.ioError "magick convert failed"), files, ⟨[], [d], []⟩⟩
    else
      let tr : Trace := ⟨[⟨f.bucket, hashHex, "image/" ++ format⟩], [d], []⟩
      let size := match env.uploadErr with | none => env.uploadSize | some _ => 0
      let g := { f with mime := newMime, size := size,
                        width := env.newWidth, height := env.newHeight }
      ⟨.ok g, files ++ [g], tr⟩

/-- The subtask error of a `GenerateThumbnail` call as a function of its
oracle alone (characterises the error component of `generateThumbnail`). -/
def thumbTaskErr (env : ThumbnailEnv) : Option String :=
  if ¬ env.resizeOk then some "magick resize failed" else env.putErr

/-- The value of the shared `err` variable observed after `wg.Wait()` in the
attachment branches: the canonical upload and the thumbnail subtask both
write it, and `uploadErrWinsRace` selects the surviving write. -/
def observedJoinErr (env : IngestEnv) : Option String :=
  if env.uploadErrWinsRace then env.uploadErr else thumbTaskErr env.thumb

/-- Embeds the attachment-image branch (`src/file.go` lines 271-315):
re-encode, then join two subtasks (canonical upload of the optimized asset,
and `GenerateThumbnail`); the shared `err` is checked after the join. -/
def ingestAttachmentImage (hashHex : String) (f : File) (files : List File)
    (env : IngestEnv) : IngestOut :=
  if ¬ env.convertOk then
    ⟨.error (.ioError "magick optimize failed"), files, Trace.empty⟩
  else
    let size := match env.uploadErr with | none => env.uploadSize | some _ => 0
    let tres := generateThumbnail f files env.thumb
    let tr : Trace := ⟨⟨f.bucket, hashHex, f.mime⟩ :: tres.2.2.puts, tres.2.2.resizes, []⟩
    let errB := match tres.1 with | .ok _ => none | .error e => some e
    match (if env.uploadErrWinsRace then env.uploadErr else errB) with
    | some e => ⟨.error (.ioError e), tres.2.1, tr⟩
    | none =>
      let g := { f with size := size,
                        thumbnailMime := match tres.1 with | .ok fT => fT.thumbnailMime | .error _ => f.thumbnailMime }
      ⟨.ok g, tres.2.1 ++ [g], tr⟩

/-- Embeds the attachment-video branch (`src/file.go` lines 316-379): start
the canonical upload, sequentially extract and probe the first frame (either
failure returns while the upload is still in flight), then join the upload
with a `GenerateThumbnail` subtask; the shared `err` is checked after the
join. -/
def ingestAttachmentVideo (hashHex : String) (f : File) (files : List File)
    (env : IngestEnv) : IngestOut :=
  let size := match env.uploadErr with | none => env.uploadSize | some _ => 0
  if ¬ env.ffmpegOk then
    ⟨.error (.ioError "ffmpeg failed"), files, ⟨[⟨f.bucket, hashHex, f.mime⟩], [], []⟩⟩
  else if ¬ env.frameProbeOk then
    ⟨.error (.ioError "magick identify failed"), files, ⟨[⟨f.bucket, hashHex, f.mime⟩], [], []⟩⟩
  else
    let g := { f with width := env.frameWidth, height := env.frameHeight }
    let tres := generateThumbnail g files env.thumb
    let tr : Trace := ⟨⟨f.bucket, hashHex, f.mime⟩ :: tres.2.2.puts, tres.2.2.resizes, []⟩
    let errB := match tres.1 with | .ok _ => none | .error e => some e
    match (if env.uploadErrWinsRace then env.uploadErr else errB) with
    | some e => ⟨.error (.ioError e), tres.2.1, tr⟩
    | none =>
      let g2 := { g with size := size,
                         thumbnailMime := match tres.1 with | .ok fT => fT.thumbnailMime | .error _ => g.thumbnailMime }
      ⟨.ok g2, tres.2.1 ++ [g2], tr⟩

/-- Embeds the attachment-other branch (`src/file.go` lines 380-395): upload
the original bytes sequentially; a failure aborts before the insert. -/
def ingestAttachmentOther (hashHex : String) (f : File) (files : List File)
    (env : IngestEnv) : IngestOut :=
  let tr : Trace := ⟨[⟨f.bucket, hashHex, f.mime⟩], [], []⟩
  match env.uploadErr with
  | some e => ⟨.error (.ioError e), files, tr⟩
  | none => ⟨.ok { f with size := env.uploadSize }, files ++ [{ f with size := env.uploadSize }], tr⟩

/-- Embeds the new-content half of `IngestMultipartFile` (`src/file.go`
lines 134-397): build the base record, probe MIME and (for images)
dimensions, then dispatch on the bucket.  A bucket outside the four
categories takes no branch and the record is inserted with no upload. -/
def ingestNewContent (bucket hashHex filename : String) (uploader : User)
    (files : List File) (env : IngestEnv) (regions : List String) : IngestOut :=
  let mime := env.detectedMime
  let f : File :=
    { id := env.newId, hash := hashHex, bucket := bucket, mime := mime,
      thumbnailMime := "", size := 0, filename := cleanFilename filename,
      width := if goHasPfx mime "image/" then env.width else 0,
      height := if goHasPfx mime "image/" then env.height else 0,
      uploadRegion := regions.headD "", uploadedBy := uploader.username,
      uploadedAt := env.now, claimed := false }
  if bucket = "icons" ∨ bucket = "emojis" ∨ bucket = "stickers" then
    ingestIconsEmojisStickers hashHex f files env
  else if bucket = "attachments" then
    if goHasPfx mime "image" then ingestAttachmentImage hashHex f files env
    else if goHasPfx mime "video" then ingestAttachmentVideo hashHex f files env
    else ingestAttachmentOther hashHex f files env
  else
    ⟨.ok f, files ++ [f], Trace.empty⟩

/-- Embeds `IngestMultipartFile` (`src/file.go` lines 39-408): hash, block
check, dedup lookup by `(hash, bucket)` (the decoded record keeps every
stored attribute; the fresh fields are id, filename, uploader and
timestamp), else the new-content path; finally `InsertOne`.  The insert and
the early scratch-file steps are modelled as succeeding. -/
def ingestMultipartFile (bucket filename : String) (uploader : User)
    (st : Store) (env : IngestEnv) (regions : List String) : IngestOut :=
  let hashHex := env.hashHex
  if getBlockStatus st.blockedFiles hashHex then
    ⟨.error .fileBlocked, st.files, Trace.empty⟩
  else
    let f0 := (findFileByHashBucket st.files hashHex bucket).getD File.empty
    if f0.hash = hashHex then
      let f := { f0 with id := env.newId, filename := cleanFilename filename,
                         uploadedBy := uploader.username, uploadedAt := env.now }
      ⟨.ok f, st.files ++ [f], Trace.empty⟩
    else
      ingestNewContent bucket hashHex filename uploader st.files env regions

/-- Models the geometry semantics of `magick -resize dxd` (the repo shells
out to ImageMagick): the image is scaled by the single factor
`d / max(width, height)` to fit inside a `d`-by-`d` box, each axis rounded
half-up. -/
def resizeFit (w h d : Nat) : Nat × Nat :=
  let mx := max w h
  if mx = 0 then (0, 0)
  else ((2 * w * d + mx) / (2 * mx), (2 * h * d + mx) / (2 * mx))

/-- Concatenation of `k` copies of a string. -/
def repeatStr (s : String) : Nat → String
  | 0 => ""
  | k + 1 => s ++ repeatStr s k

/-- Models the output of `magick identify -format %n` (the repo shells out
to ImageMagick): the format string is printed once per frame, so the output
is the decimal frame count repeated that many times. -/
def identifyFramesOutput (n : Nat) : String :=
  repeatStr (Nat.repr n) n

/-- Number of canonical-object uploads (key equal to the content hash) in a
trace. -/
def canonicalPutCount (tr : Trace) (hashHex : String) : Nat :=
  (tr.puts.filter (fun p => p.key == hashHex)).length


/-! ## Concrete instances used by counterexamples and witnesses -/

/-- A thumbnail oracle: single frame reported, resize and upload succeed. -/
def thumbEnvOkOne : ThumbnailEnv := ⟨"1", true, none⟩

/-- A concrete uploader. -/
def userAlice : User := ⟨"alice", 0⟩

/-- Ingestion oracle for an icon upload whose canonical `FPutObject` fails. -/
def envIconUploadFail : IngestEnv :=
  { newId := "id1", now := 100, hashHex := "h1", detectedMime := "image/png",
    width := 500, height := 500, framesOut := "1", convertOk := true,
    uploadErr := some "s3 region down", uploadSize := 0, newWidth := 256, newHeight := 256,
    ffmpegOk := true, frameProbeOk := true, frameWidth := 0, frameHeight := 0,
    uploadErrWinsRace := true, thumb := thumbEnvOkOne }

/-- The record `envIconUploadFail`'s ingestion persists despite the failed upload. -/
def fileIconUploadFail : File :=
  { id := "id1", hash := "h1", bucket := "icons", mime := "image/webp", thumbnailMime := "",
    size := 0, filename := "a.png", width := 256, height := 256, uploadRegion := "r1",
    uploadedBy := "alice", uploadedAt := 100, claimed := false }

/-- Ingestion oracle for an attachment image whose canonical upload fails and
whose failed write to the shared error variable survives the join. -/
def envAttachUploadFail : IngestEnv :=
  { envIconUploadFail with uploadErr := some "boom" }

/-- Ingestion oracle for a 200 by 100 icon upload (every step succeeds). -/
def envIconWide : IngestEnv :=
  { envIconUploadFail with
      width := 200, height := 100, uploadErr := none,
      uploadSize := 77, newWidth := 200, newHeight := 100 }

/-- An existing metadata record that a downstream feature has claimed. -/
def fileClaimedExisting : File :=
  { id := "old1", hash := "h1", bucket := "attachments", mime := "text/plain",
    thumbnailMime := "", size := 5, filename := "x.txt", width := 0, height := 0,
    uploadRegion := "r1", uploadedBy := "bob", uploadedAt := 50, claimed := true }

/-- Ingestion oracle for re-uploading the bytes of `fileClaimedExisting`. -/
def envDedupText : IngestEnv :=
  { newId := "id2", now := 200, hashHex := "h1", detectedMime := "text/plain",
    width := 0, height := 0, framesOut := "1", convertOk := true,
    uploadErr := none, uploadSize := 0, newWidth := 0, newHeight := 0,
    ffmpegOk := true, frameProbeOk := true, frameWidth := 0, frameHeight := 0,
    uploadErrWinsRace := true, thumb := thumbEnvOkOne }

/-- The clone produced by the dedup fast path for `envDedupText`. -/
def fileDedupClone : File :=
  { fileClaimedExisting with
      id := "id2", filename := "y.txt",
      uploadedBy := "alice", uploadedAt := 200 }

/-- Ingestion oracle for a first upload of fresh non-media content. -/
def envFirstUpload : IngestEnv :=
  { newId := "idA", now := 10, hashHex := "h9", detectedMime := "application/pdf",
    width := 0, height := 0, framesOut := "1", convertOk := true,
    uploadErr := none, uploadSize := 42, newWidth := 0, newHeight := 0,
    ffmpegOk := true, frameProbeOk := true, frameWidth := 0, frameHeight := 0,
    uploadErrWinsRace := true, thumb := thumbEnvOkOne }

/-- Ingestion oracle for a second upload of the same bytes. -/
def envSecondUpload : IngestEnv :=
  { envFirstUpload with newId := "idB", now := 20 }

/-- The record produced by the first upload under `envFirstUpload`. -/
def fileFirstUpload : File :=
  { id := "idA", hash := "h9", bucket := "attachments", mime := "application/pdf",
    thumbnailMime := "", size := 42, filename := "doc.pdf", width := 0, height := 0,
    uploadRegion := "r1", uploadedBy := "alice", uploadedAt := 10, claimed := false }

/-- A record that is the sole reference to its `(hash, bucket)`. -/
def fileSolo : File :=
  { id := "s1", hash := "hs", bucket := "attachments", mime := "image/png",
    thumbnailMime := "image/webp", size := 10, filename := "p.png", width := 10,
    height := 10, uploadRegion := "r1", uploadedBy := "bob", uploadedAt := 5,
    claimed := false }

/-- A sibling record sharing `(hash, bucket)` with `fileSolo`. -/
def fileSib : File := { fileSolo with id := "s2", uploadedAt := 6 }

/-- An unclaimed record old enough for the GC sweep. -/
def fileExpiredUnclaimed : File :=
  { fileSolo with id := "g1", hash := "hg1", uploadedAt := 100, claimed := false }

/-- A claimed record of the same age. -/
def fileExpiredClaimed : File :=
  { fileSolo with id := "g2", hash := "hg2", uploadedAt := 100, claimed := true }

/-- Ingestion oracle for non-image content aimed at an icon bucket. -/
def envNonImageIcon : IngestEnv := { envDedupText with hashHex := "h3" }

/-- Ingestion oracle for a 10-frame animated image aimed at an emoji bucket. -/
def envEmojiAnimated : IngestEnv :=
  { envIconUploadFail with
      hashHex := "h4", framesOut := identifyFramesOutput 10,
      uploadErr := none, uploadSize := 9 }

/-- An attachment image record for thumbnail reads. -/
def fileWide : File := { fileSolo with width := 1000, height := 500 }

/-- A record outside the attachments bucket, for thumbnail-read requests. -/
def fileIconRec : File := { fileSolo with bucket := "icons" }

/-! ## Helper lemmas -/

lemma thumbKey_ne (s : String) : s ++ "_thumbnail" ≠ s := by
  intro h
  have h1 := congrArg String.length h
  rw [String.length_append] at h1
  have h2 : ("_thumbnail" : String).length = 10 := by decide
  omega

lemma findFileByHashBucket_none_iff (files : List File) (hh b : String) :
    findFileByHashBucket files hh b = none ↔
      ∀ g ∈ files, ¬(g.hash = hh ∧ g.bucket = b) := by
  unfold findFileByHashBucket
  rw [List.find?_eq_none]
  constructor
  · intro h g hg hc
    have := h g hg
    simp [hc.1, hc.2] at this
  · intro h g hg
    have := h g hg
    simp only [Bool.and_eq_true, beq_iff_eq]
    tauto

lemma updateThumbnailMimeMany_no_match (files : List File) (hh b tm : String)
    (h : findFileByHashBucket files hh b = none) :
    updateThumbnailMimeMany files hh b tm = files := by
  have h1 := (findFileByHashBucket_none_iff files hh b).mp h
  unfold updateThumbnailMimeMany
  conv_rhs => rw [← List.map_id files]
  apply List.map_congr_left
  intro g hg
  simp [h1 g hg]

lemma generateThumbnail_files_no_match (f : File) (files : List File) (env : ThumbnailEnv)
    (h : findFileByHashBucket files f.hash f.bucket = none) :
    (generateThumbnail f files env).2.1 = files := by
  unfold generateThumbnail
  rcases hr : env.resizeOk with _ | _
  · simp [hr]
  · rcases hp : env.putErr with _ | e
    · simp [hr, hp, updateThumbnailMimeMany_no_match _ _ _ _ h]
    · simp [hr, hp]

lemma generateThumbnail_err (f : File) (files : List File) (env : ThumbnailEnv) :
    (match (generateThumbnail f files env).1 with
      | .ok _ => (none : Option String)
      | .error e => some e) = thumbTaskErr env := by
  unfold generateThumbnail thumbTaskErr
  rcases hr : env.resizeOk with _ | _
  · simp [hr]
  · rcases hp : env.putErr with _ | e
    · simp [hr, hp]
    · simp [hr, hp]

lemma generateThumbnail_puts_keys (f : File) (files : List File) (env : ThumbnailEnv) :
    ∀ p ∈ (generateThumbnail f files env).2.2.puts, p.key = f.hash ++ "_thumbnail" := by
  unfold generateThumbnail
  rcases hr : env.resizeOk with _ | _
  · simp [hr]
  · rcases hp : env.putErr with _ | e
    · simp [hr, hp]
    · simp [hr, hp]

lemma generateThumbnail_resizes (f : File) (files : List File) (env : ThumbnailEnv) :
    (generateThumbnail f files env).2.2.resizes = [thumbDesiredSize f.width f.height] := by
  unfold generateThumbnail
  rcases hr : env.resizeOk with _ | _
  · simp [hr]
  · rcases hp : env.putErr with _ | e
    · simp [hr, hp]
    · simp [hr, hp]

lemma eq_of_mem_of_id_eq (files : List File) (hnd : (files.map File.id).Nodup)
    {a b : File} (ha : a ∈ files) (hb : b ∈ files) (h : a.id = b.id) : a = b :=
  List.inj_on_of_nodup_map hnd ha hb h

lemma deleteOneById_eq_filter (files : List File) (i : String)
    (hnd : (files.map File.id).Nodup) :
    deleteOneById files i = files.filter (fun g => !(g.id == i)) := by
  induction files with
  | nil => rfl
  | cons f rest ih =>
    simp only [List.map_cons, List.nodup_cons] at hnd
    by_cases hf : f.id = i
    · have hrest : rest.filter (fun g => !(g.id == i)) = rest := by
        apply List.filter_eq_self.mpr
        intro g hg
        simp only [Bool.not_eq_eq_eq_not, Bool.not_true, beq_eq_false_iff_ne, ne_eq]
        intro hgid
        have hmem : g.id ∈ rest.map File.id := List.mem_map_of_mem File.id hg
        rw [hgid, ← hf] at hmem
        exact hnd.1 hmem
      simp [deleteOneById, hf, hrest]
    · simp [deleteOneById, hf, ih hnd.2]

lemma mem_deleteOneById (files : List File) (e : File)
    (hnd : (files.map File.id).Nodup) (he : e ∈ files) :
    ∀ g, g ∈ deleteOneById files e.id ↔ (g ∈ files ∧ g ≠ e) := by
  intro g
  rw [deleteOneById_eq_filter files e.id hnd, List.mem_filter]
  simp only [Bool.not_eq_eq_eq_not, Bool.not_true, beq_eq_false_iff_ne, ne_eq]
  constructor
  · rintro ⟨hg, hid⟩
    exact ⟨hg, fun hge => hid (by rw [hge])⟩
  · rintro ⟨hg, hge⟩
    refine ⟨hg, fun hid => hge ?_⟩
    exact eq_of_mem_of_id_eq files hnd hg he hid

lemma nodup_ids_deleteOneById (files : List File) (i : String)
    (hnd : (files.map File.id).Nodup) :
    ((deleteOneById files i).map File.id).Nodup := by
  rw [deleteOneById_eq_filter files i hnd]
  exact ((List.filter_sublist files).map File.id).nodup hnd

lemma getFile_mem (files : List File) (g : File)
    (hnd : (files.map File.id).Nodup) (hg : g ∈ files) (hup : g.uploadedAt ≠ 0) :
    getFile files g.id = some g := by
  induction files with
  | nil => cases hg
  | cons f rest ih =>
    simp only [List.map_cons, List.nodup_cons] at hnd
    rw [List.mem_cons] at hg
    rcases hg with hg | hg
    · subst hg
      unfold getFile
      simp [List.find?_cons, hup]
    · have hne : (f.id == g.id) = false := by
        simp only [beq_eq_false_iff_ne, ne_eq]
        intro hid
        have hmem : g.id ∈ rest.map File.id := List.mem_map_of_mem File.id hg
        rw [← hid] at hmem
        exact hnd.1 hmem
      unfold getFile at ih ⊢
      simp [List.find?_cons, hne, ih hnd.2 hg]

lemma cleanupFold_store (regions : List String) :
    ∀ (es : List File) (st : Store) (tr : Trace),
      ((es.foldl
          (fun acc f =>
            let r := fileDelete f regions acc.1
            (r.1, ⟨[], [], acc.2.removes ++ r.2.removes⟩))
          (st, tr)).1).files =
        es.foldl (fun fs e => deleteOneById fs e.id) st.files := by
  intro es
  induction es with
  | nil => intro st tr; rfl
  | cons e es ih =>
    intro st tr
    simp only [List.foldl_cons]
    exact ih _ _

lemma mem_foldl_deleteOne :
    ∀ (es : List File) (files : List File),
      (files.map File.id).Nodup → es.Nodup → (∀ x ∈ es, x ∈ files) →
      ∀ g, g ∈ es.foldl (fun fs e => deleteOneById fs e.id) files ↔
        (g ∈ files ∧ ∀ e ∈ es, g ≠ e) := by
  intro es
  induction es with
  | nil => intro files hnd _ _ g; simp
  | cons e es ih =>
    intro files hnd hnde hsub g
    rw [List.nodup_cons] at hnde
    have hefiles : e ∈ files := hsub e (List.mem_cons_self e es)
    have hdel := mem_deleteOneById files e hnd hefiles
    have hnd1 : ((deleteOneById files e.id).map File.id).Nodup :=
      nodup_ids_deleteOneById files e.id hnd
    have hsub1 : ∀ x ∈ es, x ∈ deleteOneById files e.id := by
      intro x hx
      rw [hdel x]
      refine ⟨hsub x (List.mem_cons_of_mem e hx), fun hxe => hnde.1 (hxe ▸ hx)⟩
    simp only [List.foldl_cons]
    rw [ih (deleteOneById files e.id) hnd1 hnde.2 hsub1 g]
    rw [hdel g]
    constructor
    · rintro ⟨⟨hg, hge⟩, hall⟩
      refine ⟨hg, fun x hx => ?_⟩
      rw [List.mem_cons] at hx
      rcases hx with rfl | hx
      · exact hge
      · exact hall x hx
    · rintro ⟨hg, hall⟩
      exact ⟨⟨hg, hall e (List.mem_cons_self e es)⟩, fun x hx => hall x (List.mem_cons_of_mem e hx)⟩

lemma thumbDesiredSize_eq_min (w h : Nat) :
    thumbDesiredSize w h = min 480 (max w h) := by
  simp only [thumbDesiredSize]
  split_ifs <;> omega

lemma iconDesiredSize_le_max (bucket : String) (w h : Nat) :
    iconDesiredSize bucket w h ≤ max w h := by
  simp only [iconDesiredSize, iconCap]
  split_ifs <;> omega

lemma roundFitHalf_le_left (x d mx : Nat) (hmx : 1 ≤ mx) (hd : d ≤ mx) :
    (2 * x * d + mx) / (2 * mx) ≤ x := by
  have h1 : 2 * x * d ≤ 2 * x * mx := Nat.mul_le_mul_left (2 * x) hd
  have h2 : 2 * x * d + mx < (x + 1) * (2 * mx) := by nlinarith
  have h3 := (Nat.div_lt_iff_lt_mul (x := 2 * x * d + mx) (y := x + 1) (by omega)).mpr h2
  omega

lemma roundFitHalf_le_bound (x d mx : Nat) (hmx : 1 ≤ mx) (hx : x ≤ mx) :
    (2 * x * d + mx) / (2 * mx) ≤ d := by
  have h1 : 2 * x * d ≤ 2 * mx * d := Nat.mul_le_mul_right d (Nat.mul_le_mul_left 2 hx)
  have h2 : 2 * x * d + mx < (d + 1) * (2 * mx) := by nlinarith
  have h3 := (Nat.div_lt_iff_lt_mul (x := 2 * x * d + mx) (y := d + 1) (by omega)).mpr h2
  omega

lemma roundFitHalf_aspect (w h d mx : Nat) (hmx : 1 ≤ mx) :
    (2 * (((2 * w * d + mx) / (2 * mx) : Nat) * (h : Int) -
      ((2 * h * d + mx) / (2 * mx) : Nat) * (w : Int))).natAbs ≤ w + h := by
  have hb : 0 < 2 * mx := by omega
  have e1 := Nat.div_add_mod (2 * w * d + mx) (2 * mx)
  have e2 := Nat.div_add_mod (2 * h * d + mx) (2 * mx)
  have hr1 := Nat.mod_lt (2 * w * d + mx) hb
  have hr2 := Nat.mod_lt (2 * h * d + mx) hb
  set q1 := (2 * w * d + mx) / (2 * mx) with hq1def
  set q2 := (2 * h * d + mx) / (2 * mx) with hq2def
  set r1 := (2 * w * d + mx) % (2 * mx) with hr1def
  set r2 := (2 * h * d + mx) % (2 * mx) with hr2def
  have e1i : ((2 : Int) * mx) * q1 + r1 = 2 * w * d + mx := by exact_mod_cast e1
  have e2i : ((2 : Int) * mx) * q2 + r2 = 2 * h * d + mx := by exact_mod_cast e2
  have hr1i : (r1 : Int) < 2 * mx := by exact_mod_cast hr1
  have hr2i : (r2 : Int) < 2 * mx := by exact_mod_cast hr2
  have hr1n : (0 : Int) ≤ r1 := Int.ofNat_nonneg r1
  have hr2n : (0 : Int) ≤ r2 := Int.ofNat_nonneg r2
  have hwn : (0 : Int) ≤ w := Int.ofNat_nonneg w
  have hhn : (0 : Int) ≤ h := Int.ofNat_nonneg h
  have hmxi : (1 : Int) ≤ mx := by exact_mod_cast hmx
  have expand : (2 * ((q1 : Int) * h - (q2 : Int) * w)) * (2 * mx) =
      2 * h * mx - 2 * w * mx - 2 * (h * r1) + 2 * (w * r2) := by
    linear_combination (2 : Int) * h * e1i - (2 : Int) * w * e2i
  have hup : (2 * ((q1 : Int) * h - (q2 : Int) * w)) * (2 * mx) ≤ ((w : Int) + h) * (2 * mx) := by
    rw [expand]
    have hbound : (w : Int) * r2 ≤ w * (2 * mx) := by
      exact mul_le_mul_of_nonneg_left hr2i.le hwn
    have hpos : (0 : Int) ≤ h * r1 := mul_nonneg hhn hr1n
    nlinarith
  have hlo : (-((w : Int) + h)) * (2 * mx) ≤ (2 * ((q1 : Int) * h - (q2 : Int) * w)) * (2 * mx) := by
    rw [expand]
    have hbound : (h : Int) * r1 ≤ h * (2 * mx) := by
      exact mul_le_mul_of_nonneg_left hr1i.le hhn
    have hpos : (0 : Int) ≤ w * r2 := mul_nonneg hwn hr2n
    nlinarith
  have hposb : (0 : Int) < 2 * mx := by omega
  have hup2 : 2 * ((q1 : Int) * h - (q2 : Int) * w) ≤ (w : Int) + h :=
    le_of_mul_le_mul_right hup hposb
  have hlo2 : (-((w : Int) + h)) ≤ 2 * ((q1 : Int) * h - (q2 : Int) * w) :=
    le_of_mul_le_mul_right hlo hposb
  have habs : ∀ z : Int, -((w : Int) + h) ≤ z → z ≤ (w : Int) + h → z.natAbs ≤ w + h := by
    intro z h1 h2
    omega
  exact habs _ hlo2 hup2

lemma resizeFit_bounds (w h d : Nat) (hw : 1 ≤ w) (hh : 1 ≤ h)
    (hd : d ≤ max w h) :
    (resizeFit w h d).1 ≤ w ∧ (resizeFit w h d).2 ≤ h ∧
    (resizeFit w h d).1 ≤ d ∧ (resizeFit w h d).2 ≤ d ∧
    (2 * (((resizeFit w h d).1 : Int) * h - ((resizeFit w h d).2 : Int) * w)).natAbs ≤ w + h := by
  have hmx : 1 ≤ max w h := le_trans hw (le_max_left w h)
  have hmx0 : ¬ (max w h = 0) := by omega
  unfold resizeFit
  simp only [hmx0, if_false]
  refine ⟨roundFitHalf_le_left w d (max w h) hmx hd,
    roundFitHalf_le_left h d (max w h) hmx hd,
    roundFitHalf_le_bound w d (max w h) hmx (le_max_left w h),
    roundFitHalf_le_bound h d (max w h) hmx (le_max_right w h),
    roundFitHalf_aspect w h d (max w h) hmx⟩

lemma repeatStr_length (s : String) : ∀ k, (repeatStr s k).length = k * s.length := by
  intro k
  induction k with
  | zero => simp [repeatStr]
  | succ n ih =>
    simp only [repeatStr, String.length_append, ih, Nat.succ_mul]
    omega

lemma identifyFramesOutput_eq_one_iff (n : Nat) (hn : 1 ≤ n) :
    (identifyFramesOutput n = "1") ↔ n = 1 := by
  constructor
  · intro hEq
    by_contra hne
    have h2 : 2 ≤ n := by omega
    have hlen := congrArg String.length hEq
    rw [identifyFramesOutput, repeatStr_length] at hlen
    have hone : ("1" : String).length = 1 := by decide
    rw [hone] at hlen
    rcases hL : (Nat.repr n).length with _ | L
    · rw [hL] at hlen; omega
    · rw [hL] at hlen
      have : n ≤ n * (L + 1) := Nat.le_mul_of_pos_right n (by omega)
      omega
  · rintro rfl
    decide

lemma filterKey_thumb_nil (l : List PutEvent) (hh : String)
    (h : ∀ p ∈ l, p.key = hh ++ "_thumbnail") :
    l.filter (fun p => p.key == hh) = [] := by
  rw [List.filter_eq_nil_iff]
  intro p hp
  simp only [beq_iff_eq]
  rw [h p hp]
  exact thumbKey_ne hh

lemma ingest_dedup (bucket filename : String) (u : User) (st : Store)
    (env : IngestEnv) (regions : List String) (f0 : File)
    (hnb : getBlockStatus st.blockedFiles env.hashHex = false)
    (hf0 : findFileByHashBucket st.files env.hashHex bucket = some f0) :
    ingestMultipartFile bucket filename u st env regions =
      ⟨.ok { f0 with
              id := env.newId, filename := cleanFilename filename,
              uploadedBy := u.username, uploadedAt := env.now },
       st.files ++ [{ f0 with
                       id := env.newId, filename := cleanFilename filename,
                       uploadedBy := u.username, uploadedAt := env.now }], Trace.empty⟩ := by
  have hp := List.find?_some (p := fun f : File => f.hash == env.hashHex && f.bucket == bucket)
    (by simpa [findFileByHashBucket] using hf0)
  simp only [Bool.and_eq_true, beq_iff_eq] at hp
  unfold ingestMultipartFile
  simp [hnb, hf0, hp.1]

lemma ingest_new (bucket filename : String) (u : User) (st : Store)
    (env : IngestEnv) (regions : List String)
    (hnb : getBlockStatus st.blockedFiles env.hashHex = false)
    (hnf : findFileByHashBucket st.files env.hashHex bucket = none)
    (hh : env.hashHex ≠ "") :
    ingestMultipartFile bucket filename u st env regions =
      ingestNewContent bucket env.hashHex filename u st.files env regions := by
  have hemp : ¬ (File.empty.hash = env.hashHex) := by
    simp only [File.empty]
    exact fun hc => hh hc.symm
  unfold ingestMultipartFile
  simp [hnb, hnf, hemp]

lemma ingestIcons_ok (hashHex : String) (f : File) (files : List File) (env : IngestEnv)
    (hfh : f.hash = hashHex) :
    ∀ f1, (ingestIconsEmojisStickers hashHex f files env).result = .ok f1 →
      f1.hash = hashHex ∧ f1.bucket = f.bucket ∧ f1.id = f.id ∧ f1.claimed = f.claimed ∧
      (ingestIconsEmojisStickers hashHex f files env).files = files ++ [f1] ∧
      canonicalPutCount (ingestIconsEmojisStickers hashHex f files env).trace hashHex = 1 := by
  intro f1 h1
  simp only [ingestIconsEmojisStickers] at h1 ⊢
  split_ifs at h1 ⊢ <;>
    first
      | (exfalso; simp at h1; done)
      | (try simp only [Except.ok.injEq] at h1
         subst h1
         refine ⟨hfh, rfl, rfl, rfl, rfl, ?_⟩
         simp [canonicalPutCount])

lemma ingestAttachmentImage_ok (hashHex : String) (f : File) (files : List File) (env : IngestEnv)
    (hfh : f.hash = hashHex) :
    ∀ f1, (ingestAttachmentImage hashHex f files env).result = .ok f1 →
      f1.hash = hashHex ∧ f1.bucket = f.bucket ∧ f1.id = f.id ∧ f1.claimed = f.claimed ∧
      (ingestAttachmentImage hashHex f files env).files =
        (generateThumbnail f files env.thumb).2.1 ++ [f1] ∧
      canonicalPutCount (ingestAttachmentImage hashHex f files env).trace hashHex = 1 := by
  intro f1 h1
  rcases htres : generateThumbnail f files env.thumb with ⟨tres1, files1, ttr⟩
  have hkeys := generateThumbnail_puts_keys f files env.thumb
  rw [htres] at hkeys
  rcases hcv : env.convertOk with _ | _ <;>
    rcases hwin : env.uploadErrWinsRace with _ | _ <;>
      rcases hup : env.uploadErr with _ | e0 <;>
        rcases tres1 with fT | eT <;>
          (try simp [ingestAttachmentImage, htres, hcv, hwin, hup, canonicalPutCount] at h1 ⊢) <;>
          first
          | (exfalso
             simp at h1
             done)
          | (try simp only [Except.ok.injEq] at h1
             subst h1
             refine ⟨hfh, rfl, rfl, rfl, rfl, ?_⟩
             intro p hp
             rw [hkeys p hp, hfh]
             exact thumbKey_ne hashHex)

lemma ingestAttachmentVideo_ok (hashHex : String) (f : File) (files : List File) (env : IngestEnv)
    (hfh : f.hash = hashHex) :
    ∀ f1, (ingestAttachmentVideo hashHex f files env).result = .ok f1 →
      f1.hash = hashHex ∧ f1.bucket = f.bucket ∧ f1.id = f.id ∧ f1.claimed = f.claimed ∧
      (ingestAttachmentVideo hashHex f files env).files =
        (generateThumbnail { f with width := env.frameWidth, height := env.frameHeight }
          files env.thumb).2.1 ++ [f1] ∧
      canonicalPutCount (ingestAttachmentVideo hashHex f files env).trace hashHex = 1 := by
  intro f1 h1
  rcases htres : generateThumbnail { f with width := env.frameWidth, height := env.frameHeight }
      files env.thumb with ⟨tres1, files1, ttr⟩
  have hkeys := generateThumbnail_puts_keys
    { f with width := env.frameWidth, height := env.frameHeight } files env.thumb
  rw [htres] at hkeys
  rcases hff : env.ffmpegOk with _ | _ <;>
    rcases hfp : env.frameProbeOk with _ | _ <;>
      rcases hwin : env.uploadErrWinsRace with _ | _ <;>
        rcases hup : env.uploadErr with _ | e0 <;>
          rcases tres1 with fT | eT <;>
            (try simp [ingestAttachmentVideo, htres, hff, hfp, hwin, hup, canonicalPutCount] at h1 ⊢) <;>
            first
              | (exfalso
                 simp at h1
                 done)
              | (try simp only [Except.ok.injEq] at h1
                 subst h1
                 refine ⟨hfh, rfl, rfl, rfl, rfl, ?_⟩
                 intro p hp
                 rw [hkeys p hp, hfh]
                 exact thumbKey_ne hashHex)

lemma ingestAttachmentOther_ok (hashHex : String) (f : File) (files : List File) (env : IngestEnv)
    (hfh : f.hash = hashHex) :
    ∀ f1, (ingestAttachmentOther hashHex f files env).result = .ok f1 →
      f1.hash = hashHex ∧ f1.bucket = f.bucket ∧ f1.id = f.id ∧ f1.claimed = f.claimed ∧
      (ingestAttachmentOther hashHex f files env).files = files ++ [f1] ∧
      canonicalPutCount (ingestAttachmentOther hashHex f files env).trace hashHex = 1 := by
  intro f1 h1
  rcases hup : env.uploadErr with _ | e <;>
    (try simp [ingestAttachmentOther, hup, canonicalPutCount] at h1 ⊢) <;>
    first
      | (exfalso
         simp at h1
         done)
      | (try simp only [Except.ok.injEq] at h1
         subst h1
         simp [canonicalPutCount, hfh])

lemma ingestNew_ok_spec (bucket filename : String) (u : User)
    (files : List File) (env : IngestEnv) (regions : List String)
    (hnf : findFileByHashBucket files env.hashHex bucket = none) :
    ∀ f1, (ingestNewContent bucket env.hashHex filename u files env regions).result = .ok f1 →
      f1.hash = env.hashHex ∧ f1.bucket = bucket ∧ f1.id = env.newId ∧ f1.claimed = false ∧
      (ingestNewContent bucket env.hashHex filename u files env regions).files = files ++ [f1] ∧
      ((bucket = "icons" ∨ bucket = "emojis" ∨ bucket = "stickers" ∨ bucket = "attachments") →
        canonicalPutCount (ingestNewContent bucket env.hashHex filename u files env regions).trace
          env.hashHex = 1) := by
  intro f1 h1
  simp only [ingestNewContent] at h1 ⊢
  by_cases h3 : bucket = "icons" ∨ bucket = "emojis" ∨ bucket = "stickers"
  · rw [if_pos h3] at h1 ⊢
    obtain ⟨hh1, hb1, hid1, hcl1, hfl1, hct1⟩ := ingestIcons_ok env.hashHex _ files env rfl f1 h1
    exact ⟨hh1, hb1, hid1, hcl1, hfl1, fun _ => hct1⟩
  · rw [if_neg h3] at h1 ⊢
    by_cases h4 : bucket = "attachments"
    · rw [if_pos h4] at h1 ⊢
      by_cases himg : goHasPfx env.detectedMime "image" = true
      · rw [if_pos himg] at h1 ⊢
        obtain ⟨hh1, hb1, hid1, hcl1, hfl1, hct1⟩ :=
          ingestAttachmentImage_ok env.hashHex _ files env rfl f1 h1
        rw [generateThumbnail_files_no_match _ files env.thumb hnf] at hfl1
        exact ⟨hh1, hb1, hid1, hcl1, hfl1, fun _ => hct1⟩
      · rw [if_neg himg] at h1 ⊢
        by_cases hvid : goHasPfx env.detectedMime "video" = true
        · rw [if_pos hvid] at h1 ⊢
          obtain ⟨hh1, hb1, hid1, hcl1, hfl1, hct1⟩ :=
            ingestAttachmentVideo_ok env.hashHex _ files env rfl f1 h1
          rw [generateThumbnail_files_no_match _ files env.thumb hnf] at hfl1
          exact ⟨hh1, hb1, hid1, hcl1, hfl1, fun _ => hct1⟩
        · rw [if_neg hvid] at h1 ⊢
          obtain ⟨hh1, hb1, hid1, hcl1, hfl1, hct1⟩ :=
            ingestAttachmentOther_ok env.hashHex _ files env rfl f1 h1
          exact ⟨hh1, hb1, hid1, hcl1, hfl1, fun _ => hct1⟩
    · rw [if_neg h4] at h1 ⊢
      try simp only [Except.ok.injEq] at h1
      subst h1
      refine ⟨rfl, rfl, rfl, rfl, rfl, fun hb4 => ?_⟩
      exact absurd hb4 (by tauto)

lemma ingestAttachmentImage_err (hashHex : String) (f : File) (files : List File)
    (env : IngestEnv) (hcv : env.convertOk = true) :
    ∀ e, observedJoinErr env = some e →
      (ingestAttachmentImage hashHex f files env).result = .error (.ioError e) ∧
      (ingestAttachmentImage hashHex f files env).files =
        (generateThumbnail f files env.thumb).2.1 := by
  intro e hobs
  rcases htres : generateThumbnail f files env.thumb with ⟨tres1, files1, ttr⟩
  have herr := generateThumbnail_err f files env.thumb
  rw [htres] at herr
  simp only [observedJoinErr] at hobs
  by_cases hwin : env.uploadErrWinsRace = true
  · rw [if_pos hwin] at hobs
    simp only [ingestAttachmentImage, htres]
    rw [if_neg (by simp [hcv]), if_pos hwin, hobs]
    exact ⟨rfl, rfl⟩
  · rw [if_neg hwin] at hobs
    simp only [ingestAttachmentImage, htres]
    rw [if_neg (by simp [hcv])]
    rcases tres1 with eT | fT
    · have heT : eT = e := by
        rw [← herr] at hobs
        simpa using hobs
      subst heT
      rw [if_neg hwin]
      exact ⟨rfl, rfl⟩
    · exfalso
      rw [← herr] at hobs
      simp at hobs

lemma ingestAttachmentVideo_err (hashHex : String) (f : File) (files : List File)
    (env : IngestEnv) (hff : env.ffmpegOk = true) (hfp : env.frameProbeOk = true) :
    ∀ e, observedJoinErr env = some e →
      (ingestAttachmentVideo hashHex f files env).result = .error (.ioError e) ∧
      (ingestAttachmentVideo hashHex f files env).files =
        (generateThumbnail { f with width := env.frameWidth, height := env.frameHeight }
          files env.thumb).2.1 := by
  intro e hobs
  rcases htres : generateThumbnail { f with width := env.frameWidth, height := env.frameHeight }
      files env.thumb with ⟨tres1, files1, ttr⟩
  have herr := generateThumbnail_err
    { f with width := env.frameWidth, height := env.frameHeight } files env.thumb
  rw [htres] at herr
  simp only [observedJoinErr] at hobs
  by_cases hwin : env.uploadErrWinsRace = true
  · rw [if_pos hwin] at hobs
    simp only [ingestAttachmentVideo, htres]
    rw [if_neg (by simp [hff]), if_neg (by simp [hfp]), if_pos hwin, hobs]
    exact ⟨rfl, rfl⟩
  · rw [if_neg hwin] at hobs
    simp only [ingestAttachmentVideo, htres]
    rw [if_neg (by simp [hff]), if_neg (by simp [hfp])]
    rcases tres1 with eT | fT
    · have heT : eT = e := by
        rw [← herr] at hobs
        simpa using hobs
      subst heT
      rw [if_neg hwin]
      exact ⟨rfl, rfl⟩
    · exfalso
      rw [← herr] at hobs
      simp at hobs

lemma ingestIcons_ignores_upload_err (hashHex : String) (f : File) (files : List File)
    (env : IngestEnv) (him : goHasPfx f.mime "image/" = true)
    (hcv : env.convertOk = true) :
    ∃ g, (ingestIconsEmojisStickers hashHex f files env).result = .ok g ∧
      (ingestIconsEmojisStickers hashHex f files env).files = files ++ [g] := by
  simp only [ingestIconsEmojisStickers]
  rw [if_neg (by simp [him]), if_neg (by simp [hcv])]
  exact ⟨_, rfl, rfl⟩

/-! ## Claim theorems -/

/-- C2 counterexample: ingesting a 200 by 100 image into an icon bucket uses
resize bound 200, while the claimed bound min(256, min(200, 100)) is 100, so
the bound used is not min(bucket cap, min(width, height)). -/
theorem C2_counterexample :
    (ingestMultipartFile "icons" "a.png" userAlice ⟨[], []⟩ envIconWide ["r1"]).trace.resizes =
      [200] ∧
    iconDesiredSize "icons" 200 100 = 200 ∧
    specSquareBound "icons" 200 100 = 100 ∧
    iconDesiredSize "icons" 200 100 ≠ specSquareBound "icons" 200 100 := by
  decide

/-- C2 (amended): for an image ingested into an icon, emoji, or sticker
bucket, the square resize bound is the source width when the width is below
the bucket cap, otherwise the source height when the height is below the cap,
otherwise the cap (icons 256, emojis 128, stickers 384); the bound never
exceeds max(width, height), so the image is never upscaled, but it can exceed
min(bucket cap, min(width, height)). -/
theorem C2_square_bound (bucket filename : String) (u : User) (st : Store)
    (env : IngestEnv) (regions : List String)
    (hb3 : bucket = "icons" ∨ bucket = "emojis" ∨ bucket = "stickers")
    (hnb : getBlockStatus st.blockedFiles env.hashHex = false)
    (hnf : findFileByHashBucket st.files env.hashHex bucket = none)
    (hhx : env.hashHex ≠ "")
    (him : goHasPfx env.detectedMime "image/" = true)
    (hw : 1 ≤ env.width) (hh2 : 1 ≤ env.height) :
    (ingestMultipartFile bucket filename u st env regions).trace.resizes =
      [iconDesiredSize bucket env.width env.height] ∧
    iconDesiredSize bucket env.width env.height ≤ max env.width env.height ∧
    (resizeFit env.width env.height (iconDesiredSize bucket env.width env.height)).1 ≤
      env.width ∧
    (resizeFit env.width env.height (iconDesiredSize bucket env.width env.height)).2 ≤
      env.height := by
  obtain ⟨b1, b2, _, _, _⟩ := resizeFit_bounds env.width env.height
    (iconDesiredSize bucket env.width env.height) hw hh2
    (iconDesiredSize_le_max bucket env.width env.height)
  refine ⟨?_, iconDesiredSize_le_max bucket env.width env.height, b1, b2⟩
  rw [ingest_new bucket filename u st env regions hnb hnf hhx]
  simp only [ingestNewContent]
  rw [if_pos hb3]
  rcases hcv : env.convertOk with _ | _ <;>
    simp [ingestIconsEmojisStickers, him, hcv]

/-- C2 witness: the amended bound theorem instantiated at a 200 by 100 icon
upload. -/
theorem C2_square_bound_witness :
    (ingestMultipartFile "icons" "a.png" userAlice ⟨[], []⟩ envIconWide ["r1"]).trace.resizes =
      [iconDesiredSize "icons" envIconWide.width envIconWide.height] ∧
    iconDesiredSize "icons" envIconWide.width envIconWide.height ≤
      max envIconWide.width envIconWide.height ∧
    (resizeFit envIconWide.width envIconWide.height
      (iconDesiredSize "icons" envIconWide.width envIconWide.height)).1 ≤ envIconWide.width ∧
    (resizeFit envIconWide.width envIconWide.height
      (iconDesiredSize "icons" envIconWide.width envIconWide.height)).2 ≤ envIconWide.height :=
  C2_square_bound "icons" "a.png" userAlice ⟨[], []⟩ envIconWide ["r1"]
    (by decide) (by decide) (by decide) (by decide) (by decide) (by decide) (by decide)

/-- C3 counterexample: re-uploading bytes whose `(hash, bucket)` matches an
existing record with `claimed = true` yields, via the dedup fast path, a new
record created with `claimed = true`, not `claimed = false`. -/
theorem C3_counterexample :
    (ingestMultipartFile "attachments" "y.txt" userAlice ⟨[fileClaimedExisting], []⟩
      envDedupText ["r1"]).result = .ok fileDedupClone ∧
    fileDedupClone.claimed = true := by
  decide

/-- C3 (amended): a record created through new-content processing has
`claimed = false` at creation, but a record created through the dedup fast
path inherits the existing record's `claimed` flag, which may be `true`. -/
theorem C3_claimed_at_creation (bucket filename : String) (u : User) (st : Store)
    (env : IngestEnv) (regions : List String)
    (hnb : getBlockStatus st.blockedFiles env.hashHex = false) :
    (∀ f0, findFileByHashBucket st.files env.hashHex bucket = some f0 →
      ∃ g, (ingestMultipartFile bucket filename u st env regions).result = .ok g ∧
        g.claimed = f0.claimed) ∧
    (findFileByHashBucket st.files env.hashHex bucket = none → env.hashHex ≠ "" →
      ∀ g, (ingestMultipartFile bucket filename u st env regions).result = .ok g →
        g.claimed = false) := by
  constructor
  · intro f0 hf0
    rw [ingest_dedup bucket filename u st env regions f0 hnb hf0]
    exact ⟨_, rfl, rfl⟩
  · intro hnf hhx g hg
    rw [ingest_new bucket filename u st env regions hnb hnf hhx] at hg
    exact (ingestNew_ok_spec bucket filename u st.files env regions hnf g hg).2.2.2.1

/-- C3 witness: the amended theorem instantiated at a dedup re-upload of a
claimed record. -/
theorem C3_claimed_at_creation_witness :
    ∃ g, (ingestMultipartFile "attachments" "y.txt" userAlice ⟨[fileClaimedExisting], []⟩
      envDedupText ["r1"]).result = .ok g ∧ g.claimed = fileClaimedExisting.claimed :=
  (C3_claimed_at_creation "attachments" "y.txt" userAlice ⟨[fileClaimedExisting], []⟩
    envDedupText ["r1"] (by decide)).1 fileClaimedExisting (by decide)

/-- C5: `Delete` removes the record's metadata row; if afterwards no record
references the same `(hash, bucket)`, removal of the canonical and thumbnail
objects is attempted against every configured region (best-effort,
fire-and-forget); if a sibling still references `(hash, bucket)`, no removal
is attempted and the sibling remains queryable via `GetFile`. -/
theorem C5_delete_refcount (f : File) (st : Store) (regions : List String)
    (hnd : (st.files.map File.id).Nodup) (hmem : f ∈ st.files) :
    (∀ g, g ∈ (fileDelete f regions st).1.files ↔ (g ∈ st.files ∧ g ≠ f)) ∧
    ((¬ ∃ g ∈ (fileDelete f regions st).1.files, g.hash = f.hash ∧ g.bucket = f.bucket) →
      ∀ r ∈ regions,
        (⟨r, f.bucket, f.hash⟩ : RemoveEvent) ∈ (fileDelete f regions st).2.removes ∧
        (⟨r, f.bucket, f.hash ++ "_thumbnail"⟩ : RemoveEvent) ∈
          (fileDelete f regions st).2.removes) ∧
    ((∃ g ∈ (fileDelete f regions st).1.files, g.hash = f.hash ∧ g.bucket = f.bucket) →
      (fileDelete f regions st).2.removes = [] ∧
      ∀ g ∈ (fileDelete f regions st).1.files, g.hash = f.hash → g.bucket = f.bucket →
        g.uploadedAt ≠ 0 → getFile (fileDelete f regions st).1.files g.id = some g) := by
  have hrefIff : ∀ fs : List File, isFileReferenced fs f.bucket f.hash = true ↔
      (∃ g ∈ fs, g.hash = f.hash ∧ g.bucket = f.bucket) := by
    intro fs
    rw [isFileReferenced, List.any_eq_true]
    simp only [Bool.and_eq_true, beq_iff_eq]
  have hfiles : (fileDelete f regions st).1.files = deleteOneById st.files f.id := rfl
  refine ⟨?_, ?_, ?_⟩
  · rw [hfiles]
    exact mem_deleteOneById st.files f hnd hmem
  · intro hno r hr
    have href : isFileReferenced (deleteOneById st.files f.id) f.bucket f.hash = false := by
      rcases hcase : isFileReferenced (deleteOneById st.files f.id) f.bucket f.hash with _ | _
      · rfl
      · exact absurd ((hrefIff _).mp hcase) (by rw [← hfiles] at hcase ⊢; exact hno)
    have hrem : (fileDelete f regions st).2.removes =
        regions.flatMap (fun r2 => [⟨r2, f.bucket, f.hash⟩,
          ⟨r2, f.bucket, f.hash ++ "_thumbnail"⟩]) := by
      simp [fileDelete, href]
    rw [hrem]
    rw [List.mem_flatMap, List.mem_flatMap]
    exact ⟨⟨r, hr, by simp⟩, ⟨r, hr, by simp⟩⟩
  · intro hex
    have href : isFileReferenced (deleteOneById st.files f.id) f.bucket f.hash = true :=
      (hrefIff _).mpr (by rw [← hfiles]; exact hex)
    constructor
    · simp [fileDelete, href]
    · intro g hgmem _ _ hup
      rw [hfiles] at hgmem
      exact getFile_mem (deleteOneById st.files f.id) g
        (nodup_ids_deleteOneById st.files f.id hnd) hgmem hup

/-- C5 witness: deleting the sole record referencing `(hash, bucket)` issues
removals of the canonical and thumbnail objects against both configured
regions; deleting one of two sibling records issues no removal and leaves
the sibling queryable. -/
theorem C5_delete_refcount_witness :
    ((⟨"r1", "attachments", "hs"⟩ : RemoveEvent) ∈
        (fileDelete fileSolo ["r1", "r2"] ⟨[fileSolo], []⟩).2.removes ∧
      (⟨"r1", "attachments", "hs" ++ "_thumbnail"⟩ : RemoveEvent) ∈
        (fileDelete fileSolo ["r1", "r2"] ⟨[fileSolo], []⟩).2.removes) ∧
    ((fileDelete fileSolo ["r1", "r2"] ⟨[fileSolo, fileSib], []⟩).2.removes = [] ∧
      ∀ g ∈ (fileDelete fileSolo ["r1", "r2"] ⟨[fileSolo, fileSib], []⟩).1.files,
        g.hash = fileSolo.hash → g.bucket = fileSolo.bucket → g.uploadedAt ≠ 0 →
        getFile (fileDelete fileSolo ["r1", "r2"] ⟨[fileSolo, fileSib], []⟩).1.files g.id =
          some g) :=
  ⟨(C5_delete_refcount fileSolo ⟨[fileSolo], []⟩ ["r1", "r2"] (by decide)
      (by decide)).2.1 (by decide) "r1" (by decide),
   (C5_delete_refcount fileSolo ⟨[fileSolo, fileSib], []⟩ ["r1", "r2"] (by decide)
      (by decide)).2.2 ⟨fileSib, by decide, by decide, by decide⟩⟩

/-- C6: one GC sweep retains exactly the records that are claimed or whose
age is at most 1800 seconds: a record with `claimed = false` and age above
1800 seconds is deleted, and a claimed record is never deleted. -/
theorem C6_gc_sweep (st : Store) (now : Int) (regions : List String)
    (hnd : (st.files.map File.id).Nodup) :
    ∀ g, g ∈ (cleanupFiles st now regions).1.files ↔
      (g ∈ st.files ∧ ¬(g.claimed = false ∧ 1800 < now - g.uploadedAt)) := by
  intro g
  have hfl : (cleanupFiles st now regions).1.files =
      (st.files.filter (fun f => !f.claimed && decide (f.uploadedAt < now - 1800))).foldl
        (fun fs e => deleteOneById fs e.id) st.files := by
    simp only [cleanupFiles]
    exact cleanupFold_store regions _ st Trace.empty
  rw [hfl]
  have hfilesnd : st.files.Nodup := hnd.of_map
  have hsubnd : (st.files.filter
      (fun f => !f.claimed && decide (f.uploadedAt < now - 1800))).Nodup :=
    (List.filter_sublist st.files).nodup hfilesnd
  have hsub : ∀ x ∈ st.files.filter
      (fun f => !f.claimed && decide (f.uploadedAt < now - 1800)), x ∈ st.files :=
    fun x hx => (List.mem_filter.mp hx).1
  rw [mem_foldl_deleteOne _ st.files hnd hsubnd hsub g]
  constructor
  · rintro ⟨hg, hall⟩
    refine ⟨hg, fun hcl => ?_⟩
    have hpg : (!g.claimed && decide (g.uploadedAt < now - 1800)) = true := by
      rw [hcl.1]
      simp only [Bool.not_false, Bool.true_and, decide_eq_true_eq]
      omega
    exact hall g (List.mem_filter.mpr ⟨hg, hpg⟩) rfl
  · rintro ⟨hg, hncl⟩
    refine ⟨hg, fun x hx hgx => ?_⟩
    rw [hgx] at hncl
    have hpx := (List.mem_filter.mp hx).2
    simp only [Bool.and_eq_true, Bool.not_eq_eq_eq_not, Bool.not_true, decide_eq_true_eq] at hpx
    exact hncl ⟨hpx.1, by omega⟩

/-- C6 witness: with two records aged 4900 seconds, the sweep deletes the
unclaimed one and keeps the claimed one. -/
theorem C6_gc_sweep_witness :
    fileExpiredClaimed ∈
      (cleanupFiles ⟨[fileExpiredUnclaimed, fileExpiredClaimed], []⟩ 5000 ["r1"]).1.files ∧
    fileExpiredUnclaimed ∉
      (cleanupFiles ⟨[fileExpiredUnclaimed, fileExpiredClaimed], []⟩ 5000 ["r1"]).1.files := by
  have h := C6_gc_sweep ⟨[fileExpiredUnclaimed, fileExpiredClaimed], []⟩ 5000 ["r1"] (by decide)
  constructor
  · exact (h fileExpiredClaimed).mpr (by decide)
  · intro hm
    exact absurd ((h fileExpiredUnclaimed).mp hm) (by decide)

/-- C7: non-image content aimed at an icon, emoji, or sticker bucket (fresh
content, not blocked) fails with `unsupportedFile`, with no blob write and no
metadata change. -/
theorem C7_unsupported_rejected (bucket filename : String) (u : User) (st : Store)
    (env : IngestEnv) (regions : List String)
    (hb3 : bucket = "icons" ∨ bucket = "emojis" ∨ bucket = "stickers")
    (hnb : getBlockStatus st.blockedFiles env.hashHex = false)
    (hnf : findFileByHashBucket st.files env.hashHex bucket = none)
    (hhx : env.hashHex ≠ "")
    (him : goHasPfx env.detectedMime "image/" = false) :
    (ingestMultipartFile bucket filename u st env regions).result = .error .unsupportedFile ∧
    (ingestMultipartFile bucket filename u st env regions).trace.puts = [] ∧
    (ingestMultipartFile bucket filename u st env regions).files = st.files := by
  rw [ingest_new bucket filename u st env regions hnb hnf hhx]
  simp only [ingestNewContent]
  rw [if_pos hb3]
  simp [ingestIconsEmojisStickers, him, Trace.empty]

/-- C7 witness: the theorem instantiated at a text file aimed at the icon
bucket. -/
theorem C7_unsupported_rejected_witness :
    (ingestMultipartFile "icons" "x.txt" userAlice ⟨[], []⟩ envNonImageIcon ["r1"]).result =
      .error .unsupportedFile ∧
    (ingestMultipartFile "icons" "x.txt" userAlice ⟨[], []⟩ envNonImageIcon ["r1"]).trace.puts =
      [] ∧
    (ingestMultipartFile "icons" "x.txt" userAlice ⟨[], []⟩ envNonImageIcon ["r1"]).files = [] :=
  C7_unsupported_rejected "icons" "x.txt" userAlice ⟨[], []⟩ envNonImageIcon ["r1"]
    (by decide) (by decide) (by decide) (by decide) (by decide)

/-- C8: for an image of `n ≥ 1` frames ingested into an icon, emoji, or
sticker bucket (fresh content, not blocked, re-encode succeeding), the
recorded MIME and the canonical upload's content type are `image/webp` when
`n = 1` and `image/gif` when `n > 1`; the frames probe is modelled by
`identifyFramesOutput`. -/
theorem C8_animated_format (bucket filename : String) (u : User) (st : Store)
    (env : IngestEnv) (regions : List String) (n : Nat)
    (hb3 : bucket = "icons" ∨ bucket = "emojis" ∨ bucket = "stickers")
    (hnb : getBlockStatus st.blockedFiles env.hashHex = false)
    (hnf : findFileByHashBucket st.files env.hashHex bucket = none)
    (hhx : env.hashHex ≠ "")
    (him : goHasPfx env.detectedMime "image/" = true)
    (hcv : env.convertOk = true)
    (hfr : env.framesOut = identifyFramesOutput n) (hn : 1 ≤ n) :
    ∃ g, (ingestMultipartFile bucket filename u st env regions).result = .ok g ∧
      g.mime = (if n = 1 then "image/webp" else "image/gif") ∧
      (ingestMultipartFile bucket filename u st env regions).trace.puts =
        [⟨bucket, env.hashHex, if n = 1 then "image/webp" else "image/gif"⟩] := by
  rw [ingest_new bucket filename u st env regions hnb hnf hhx]
  simp only [ingestNewContent]
  rw [if_pos hb3]
  simp only [ingestIconsEmojisStickers]
  rw [if_neg (by simp [him]), if_neg (by simp [hcv])]
  refine ⟨_, rfl, ?_, ?_⟩ <;>
    (by_cases h1 : n = 1
     · have hone : env.framesOut = "1" := by
         rw [hfr, h1]
         exact (identifyFramesOutput_eq_one_iff 1 (by omega)).mpr rfl
       simp [hone, h1]
       try decide
     · have hone : ¬ env.framesOut = "1" := by
         rw [hfr]
         intro hc
         exact h1 ((identifyFramesOutput_eq_one_iff n hn).mp hc)
       simp [hone, h1]
       try decide)

/-- C8 witness: a 10-frame animated image into the emoji bucket yields MIME
`image/gif`. -/
theorem C8_animated_format_witness :
    ∃ g, (ingestMultipartFile "emojis" "a.png" userAlice ⟨[], []⟩ envEmojiAnimated
      ["r1"]).result = .ok g ∧
      g.mime = (if 10 = 1 then "image/webp" else "image/gif") ∧
      (ingestMultipartFile "emojis" "a.png" userAlice ⟨[], []⟩ envEmojiAnimated
        ["r1"]).trace.puts =
        [⟨"emojis", envEmojiAnimated.hashHex, if 10 = 1 then "image/webp" else "image/gif"⟩] :=
  C8_animated_format "emojis" "a.png" userAlice ⟨[], []⟩ envEmojiAnimated ["r1"] 10
    (by decide) (by decide) (by decide) (by decide) (by decide) (by decide) (by decide)
    (by decide)

/-- C9: the thumbnail resize geometry is min(480, max(width, height)); under
the modelled box-fit semantics of `magick -resize`, the output axes never
exceed the source axes (no upscaling), the larger output axis is at most 480,
and the aspect relation holds up to rounding:
2 * |outW * height - outH * width| ≤ width + height. -/
theorem C9_thumbnail_bounds (f : File) (files : List File) (env : ThumbnailEnv)
    (hw : 1 ≤ f.width) (hh2 : 1 ≤ f.height) :
    (generateThumbnail f files env).2.2.resizes = [thumbDesiredSize f.width f.height] ∧
    thumbDesiredSize f.width f.height = min 480 (max f.width f.height) ∧
    (resizeFit f.width f.height (thumbDesiredSize f.width f.height)).1 ≤ f.width ∧
    (resizeFit f.width f.height (thumbDesiredSize f.width f.height)).2 ≤ f.height ∧
    max (resizeFit f.width f.height (thumbDesiredSize f.width f.height)).1
      (resizeFit f.width f.height (thumbDesiredSize f.width f.height)).2 ≤ 480 ∧
    (2 * (((resizeFit f.width f.height (thumbDesiredSize f.width f.height)).1 : Int) *
        f.height -
      ((resizeFit f.width f.height (thumbDesiredSize f.width f.height)).2 : Int) *
        f.width)).natAbs ≤ f.width + f.height := by
  have hmin := thumbDesiredSize_eq_min f.width f.height
  have hd : thumbDesiredSize f.width f.height ≤ max f.width f.height := by
    rw [hmin]; omega
  have h480 : thumbDesiredSize f.width f.height ≤ 480 := by
    rw [hmin]; omega
  obtain ⟨b1, b2, b3, b4, b5⟩ :=
    resizeFit_bounds f.width f.height (thumbDesiredSize f.width f.height) hw hh2 hd
  exact ⟨generateThumbnail_resizes f files env, hmin, b1, b2, by omega, b5⟩

/-- C9 witness: a 1000 by 500 source is resized with bound 480 and the
modelled output is 480 by 240. -/
theorem C9_thumbnail_bounds_witness :
    ((generateThumbnail fileWide [] thumbEnvOkOne).2.2.resizes =
        [thumbDesiredSize fileWide.width fileWide.height] ∧
      thumbDesiredSize fileWide.width fileWide.height =
        min 480 (max fileWide.width fileWide.height) ∧
      (resizeFit fileWide.width fileWide.height
        (thumbDesiredSize fileWide.width fileWide.height)).1 ≤ fileWide.width ∧
      (resizeFit fileWide.width fileWide.height
        (thumbDesiredSize fileWide.width fileWide.height)).2 ≤ fileWide.height ∧
      max (resizeFit fileWide.width fileWide.height
          (thumbDesiredSize fileWide.width fileWide.height)).1
        (resizeFit fileWide.width fileWide.height
          (thumbDesiredSize fileWide.width fileWide.height)).2 ≤ 480 ∧
      (2 * (((resizeFit fileWide.width fileWide.height
            (thumbDesiredSize fileWide.width fileWide.height)).1 : Int) * fileWide.height -
        ((resizeFit fileWide.width fileWide.height
            (thumbDesiredSize fileWide.width fileWide.height)).2 : Int) *
          fileWide.width)).natAbs ≤ fileWide.width + fileWide.height) ∧
    resizeFit fileWide.width fileWide.height
      (thumbDesiredSize fileWide.width fileWide.height) = (480, 240) :=
  ⟨C9_thumbnail_bounds fileWide [] thumbEnvOkOne (by decide) (by decide), by decide⟩

/-- C10: a thumbnail request on a file outside the attachments bucket, or
with a MIME that is neither image nor video, is silently ignored and serves
the canonical object, identical to a non-thumbnail request; the `_thumbnail`
key suffix and lazy generation apply exactly to attachment-bucket files with
image or video MIME. -/
theorem C10_thumbnail_key_selection (f : File) (files : List File) (env : ThumbnailEnv) :
    (f.bucket ≠ "attachments" →
      getObject f true files env = getObject f false files env) ∧
    (goHasPfx f.mime "image/" = false → goHasPfx f.mime "video/" = false →
      getObject f true files env = getObject f false files env) ∧
    (getObject f false files env = (.ok (f.hash, f), files, Trace.empty)) ∧
    (f.bucket = "attachments" →
      (goHasPfx f.mime "image/" = true ∨ goHasPfx f.mime "video/" = true) →
      (f.thumbnailMime ≠ "" →
        getObject f true files env = (.ok (f.hash ++ "_thumbnail", f), files, Trace.empty)) ∧
      (f.thumbnailMime = "" →
        getObject f true files env =
          (match generateThumbnail f files env with
            | (.error e, files1, tr) => (.error e, files1, tr)
            | (.ok f1, files1, tr) => (.ok (f1.hash ++ "_thumbnail", f1), files1, tr)))) := by
  refine ⟨?_, ?_, ?_, ?_⟩
  · intro hb
    have hbeq : (f.bucket == "attachments") = false := by
      simp only [beq_eq_false_iff_ne, ne_eq]; exact hb
    simp [getObject, hbeq]
  · intro h1 h2
    simp [getObject, h1, h2]
  · simp [getObject]
  · intro hb hm
    have hbeq : (f.bucket == "attachments") = true := by
      simp only [beq_iff_eq]; exact hb
    have hor : (goHasPfx f.mime "image/" || goHasPfx f.mime "video/") = true := by
      rcases hm with hm | hm <;> simp [hm]
    constructor
    · intro htm
      simp [getObject, hbeq, hor, htm]
    · intro htm
      simp only [getObject, hbeq, hor, htm, Bool.and_true, Bool.true_and, if_true]

/-- C10 witness: on a record in the icons bucket a thumbnail request serves
the same canonical object as a plain request. -/
theorem C10_thumbnail_key_selection_witness :
    getObject fileIconRec true [] thumbEnvOkOne = getObject fileIconRec false [] thumbEnvOkOne :=
  (C10_thumbnail_key_selection fileIconRec [] thumbEnvOkOne).1 (by decide)

/-- C1 counterexample: an icon-bucket ingestion whose canonical-upload
subtask fails still returns a successfully created record and persists it to
the metadata store, because the subtask's error is never examined after the
join in the icon/emoji/sticker branch. -/
theorem C1_counterexample :
    envIconUploadFail.uploadErr = some "s3 region down" ∧
    (ingestMultipartFile "icons" "a.png" userAlice ⟨[], []⟩ envIconUploadFail ["r1"]).result =
      .ok fileIconUploadFail ∧
    (ingestMultipartFile "icons" "a.png" userAlice ⟨[], []⟩ envIconUploadFail ["r1"]).files =
      [fileIconUploadFail] := by
  decide

/-- C1 (amended): the canonical upload and the derivative subtask are joined
before the record is assembled.  In the attachment-image and attachment-video
paths the subtasks report through one shared error variable: when the value
observed after the join is an error, `IngestMultipartFile` returns that error
and no record is persisted.  In the icon/emoji/sticker path the subtask
outcomes are never examined after the join: even when the canonical upload
fails, the record is persisted and no error is returned. -/
theorem C1_join_error_handling (bucket filename : String) (u : User) (st : Store)
    (env : IngestEnv) (regions : List String)
    (hnb : getBlockStatus st.blockedFiles env.hashHex = false)
    (hnf : findFileByHashBucket st.files env.hashHex bucket = none)
    (hhx : env.hashHex ≠ "") :
    (bucket = "attachments" → goHasPfx env.detectedMime "image" = true →
      env.convertOk = true → ∀ e, observedJoinErr env = some e →
      (ingestMultipartFile bucket filename u st env regions).result = .error (.ioError e) ∧
      (ingestMultipartFile bucket filename u st env regions).files = st.files) ∧
    (bucket = "attachments" → goHasPfx env.detectedMime "image" = false →
      goHasPfx env.detectedMime "video" = true →
      env.ffmpegOk = true → env.frameProbeOk = true → ∀ e, observedJoinErr env = some e →
      (ingestMultipartFile bucket filename u st env regions).result = .error (.ioError e) ∧
      (ingestMultipartFile bucket filename u st env regions).files = st.files) ∧
    ((bucket = "icons" ∨ bucket = "emojis" ∨ bucket = "stickers") →
      goHasPfx env.detectedMime "image/" = true → env.convertOk = true →
      env.uploadErr ≠ none →
      ∃ g, (ingestMultipartFile bucket filename u st env regions).result = .ok g ∧
        (ingestMultipartFile bucket filename u st env regions).files = st.files ++ [g]) := by
  rw [ingest_new bucket filename u st env regions hnb hnf hhx]
  refine ⟨?_, ?_, ?_⟩
  · intro hb himg hcv e hobs
    subst hb
    simp only [ingestNewContent]
    rw [if_neg (by decide), if_pos (by trivial), if_pos himg]
    obtain ⟨h1, h2⟩ := ingestAttachmentImage_err env.hashHex _ st.files env hcv e hobs
    refine ⟨h1, ?_⟩
    rw [h2, generateThumbnail_files_no_match _ st.files env.thumb hnf]
  · intro hb himg hvid hff hfp e hobs
    subst hb
    simp only [ingestNewContent]
    rw [if_neg (by decide), if_pos (by trivial), if_neg (by simp [himg]), if_pos hvid]
    obtain ⟨h1, h2⟩ := ingestAttachmentVideo_err env.hashHex _ st.files env hff hfp e hobs
    refine ⟨h1, ?_⟩
    rw [h2, generateThumbnail_files_no_match _ st.files env.thumb hnf]
  · intro hb3 him hcv _
    simp only [ingestNewContent]
    rw [if_pos hb3]
    exact ingestIcons_ignores_upload_err env.hashHex _ st.files env him hcv

/-- C1 witness: an attachment-image ingestion whose canonical upload fails
(and whose error write survives the join) aborts with that error and
persists nothing. -/
theorem C1_join_error_handling_witness :
    (ingestMultipartFile "attachments" "a.png" userAlice ⟨[], []⟩ envAttachUploadFail
      ["r1"]).result = .error (.ioError "boom") ∧
    (ingestMultipartFile "attachments" "a.png" userAlice ⟨[], []⟩ envAttachUploadFail
      ["r1"]).files = [] :=
  (C1_join_error_handling "attachments" "a.png" userAlice ⟨[], []⟩ envAttachUploadFail ["r1"]
    (by decide) (by decide) (by decide)).1 rfl (by decide) (by decide) "boom" (by decide)

/-- C4: re-uploading bytes whose `(hash, bucket)` matches an existing record
takes the dedup fast path: the new record copies the existing record's MIME,
dimensions, size and thumbnail MIME, carries a fresh identifier, uploader and
timestamp, and performs no blob write; two uploads of identical bytes to the
same bucket yield two distinct identifiers sharing one hash with exactly one
canonical blob write. -/
theorem C4_dedup_fast_path (bucket fn1 fn2 : String) (u1 u2 : User) (st : Store)
    (env1 env2 : IngestEnv) (regions : List String)
    (hb4 : bucket = "icons" ∨ bucket = "emojis" ∨ bucket = "stickers" ∨
      bucket = "attachments")
    (hnb : getBlockStatus st.blockedFiles env1.hashHex = false)
    (hnf : findFileByHashBucket st.files env1.hashHex bucket = none)
    (hhx : env1.hashHex ≠ "")
    (hsame : env2.hashHex = env1.hashHex)
    (hids : env2.newId ≠ env1.newId) :
    ∀ f1, (ingestMultipartFile bucket fn1 u1 st env1 regions).result = .ok f1 →
      ∃ f2,
        (ingestMultipartFile bucket fn2 u2
          ⟨(ingestMultipartFile bucket fn1 u1 st env1 regions).files, st.blockedFiles⟩
          env2 regions).result = .ok f2 ∧
        f1.id = env1.newId ∧ f2.id = env2.newId ∧ f2.id ≠ f1.id ∧
        f1.hash = env1.hashHex ∧ f2.hash = f1.hash ∧
        f2.mime = f1.mime ∧ f2.width = f1.width ∧ f2.height = f1.height ∧
        f2.size = f1.size ∧ f2.thumbnailMime = f1.thumbnailMime ∧
        f2.uploadedBy = u2.username ∧ f2.uploadedAt = env2.now ∧
        (ingestMultipartFile bucket fn2 u2
          ⟨(ingestMultipartFile bucket fn1 u1 st env1 regions).files, st.blockedFiles⟩
          env2 regions).trace.puts = [] ∧
        (ingestMultipartFile bucket fn2 u2
          ⟨(ingestMultipartFile bucket fn1 u1 st env1 regions).files, st.blockedFiles⟩
          env2 regions).files =
          (ingestMultipartFile bucket fn1 u1 st env1 regions).files ++ [f2] ∧
        canonicalPutCount (ingestMultipartFile bucket fn1 u1 st env1 regions).trace
          env1.hashHex = 1 ∧
        canonicalPutCount (ingestMultipartFile bucket fn2 u2
          ⟨(ingestMultipartFile bucket fn1 u1 st env1 regions).files, st.blockedFiles⟩
          env2 regions).trace env1.hashHex = 0 := by
  intro f1 hf1
  have heq1 := ingest_new bucket fn1 u1 st env1 regions hnb hnf hhx
  rw [heq1] at hf1 ⊢
  obtain ⟨hh1, hb1, hid1, hcl1, hfl1, hct1⟩ :=
    ingestNew_ok_spec bucket fn1 u1 st.files env1 regions hnf f1 hf1
  rw [hfl1]
  have hfind2 : findFileByHashBucket (st.files ++ [f1]) env2.hashHex bucket = some f1 := by
    unfold findFileByHashBucket at hnf ⊢
    rw [hsame, List.find?_append, hnf]
    simp [List.find?_cons, hh1, hb1]
  have hnb2 : getBlockStatus st.blockedFiles env2.hashHex = false := by
    rw [hsame]; exact hnb
  have heq2 := ingest_dedup bucket fn2 u2 ⟨st.files ++ [f1], st.blockedFiles⟩ env2 regions f1
    hnb2 hfind2
  rw [heq2]
  refine ⟨_, rfl, hid1, rfl, ?_, hh1, rfl, rfl, rfl, rfl, rfl, rfl, rfl, rfl, rfl, rfl,
    hct1 hb4, rfl⟩
  rw [hid1]
  exact hids

/-- C4 witness: two uploads of the same non-media bytes into the attachments
bucket; the second returns a fresh-id clone with no blob write, and exactly
one canonical write occurs overall. -/
theorem C4_dedup_fast_path_witness :
    ∃ f2,
      (ingestMultipartFile "attachments" "doc.pdf" userAlice
        ⟨(ingestMultipartFile "attachments" "doc.pdf" userAlice ⟨[], []⟩ envFirstUpload
            ["r1"]).files, []⟩
        envSecondUpload ["r1"]).result = .ok f2 ∧
      fileFirstUpload.id = envFirstUpload.newId ∧ f2.id = envSecondUpload.newId ∧
      f2.id ≠ fileFirstUpload.id ∧
      fileFirstUpload.hash = envFirstUpload.hashHex ∧ f2.hash = fileFirstUpload.hash ∧
      f2.mime = fileFirstUpload.mime ∧ f2.width = fileFirstUpload.width ∧
      f2.height = fileFirstUpload.height ∧ f2.size = fileFirstUpload.size ∧
      f2.thumbnailMime = fileFirstUpload.thumbnailMime ∧
      f2.uploadedBy = userAlice.username ∧ f2.uploadedAt = envSecondUpload.now ∧
      (ingestMultipartFile "attachments" "doc.pdf" userAlice
        ⟨(ingestMultipartFile "attachments" "doc.pdf" userAlice ⟨[], []⟩ envFirstUpload
            ["r1"]).files, []⟩
        envSecondUpload ["r1"]).trace.puts = [] ∧
      (ingestMultipartFile "attachments" "doc.pdf" userAlice
        ⟨(ingestMultipartFile "attachments" "doc.pdf" userAlice ⟨[], []⟩ envFirstUpload
            ["r1"]).files, []⟩
        envSecondUpload ["r1"]).files =
        (ingestMultipartFile "attachments" "doc.pdf" userAlice ⟨[], []⟩ envFirstUpload
          ["r1"]).files ++ [f2] ∧
      canonicalPutCount (ingestMultipartFile "attachments" "doc.pdf" userAlice ⟨[], []⟩
        envFirstUpload ["r1"]).trace envFirstUpload.hashHex = 1 ∧
      canonicalPutCount (ingestMultipartFile "attachments" "doc.pdf" userAlice
        ⟨(ingestMultipartFile "attachments" "doc.pdf" userAlice ⟨[], []⟩ envFirstUpload
            ["r1"]).files, []⟩
        envSecondUpload ["r1"]).trace envFirstUpload.hashHex = 0 :=
  C4_dedup_fast_path "attachments" "doc.pdf" "doc.pdf" userAlice userAlice ⟨[], []⟩
    envFirstUpload envSecondUpload ["r1"] (Or.inr (Or.inr (Or.inr rfl)))
    (by decide) (by decide) (by decide) (by decide) (by decide)
    fileFirstUpload (by decide)
